import Mathlib

/-
  Verification of the KtxBundle container (libs/image/include/image/KtxBundle.h).

  The repository ships only the public header; the behaviour of the member
  functions is therefore modelled from the design document (spec.md), which
  describes the byte layout (§6), the blob linearization (§4.1), the
  serialization/parse logic (§4.4) and the error taxonomy (§7).

  Bytes are modelled as natural numbers (values < 256 in well-formed data);
  32-bit fields are written little-endian with explicit reduction mod 2^32.
-/

namespace KtxSpec

/-- Modelled from the spec: §6 — each header field is "a 4-byte unsigned
integer"; written little-endian, wrapping at 2^32 like the `uint32_t`
fields of the missing implementation file. -/
def u32le (v : Nat) : List Nat :=
  [v % 256, v / 256 % 256, v / 65536 % 256, v / 16777216 % 256]

/-- Decode a 4-byte little-endian unsigned integer from the front of a list. -/
def dec4 (l : List Nat) : Nat :=
  l.getD 0 0 + 256 * l.getD 1 0 + 65536 * l.getD 2 0 + 16777216 * l.getD 3 0

/-- Number of zero bytes needed to pad `n` bytes to the next 4-byte boundary. -/
def pad4 (n : Nat) : Nat := (4 - n % 4) % 4

/-- Header record (KtxInfo, KtxBundle.h lines 25-35). -/
structure KtxInfo where
  endianness : Nat
  glType : Nat
  glTypeSize : Nat
  glFormat : Nat
  glInternalFormat : Nat
  glBaseInternalFormat : Nat
  pixelWidth : Nat
  pixelHeight : Nat
  pixelDepth : Nat
deriving DecidableEq, Repr

/-- Blob coordinate (KtxBlobIndex, KtxBundle.h lines 37-41). -/
structure KtxBlobIndex where
  mipLevel : Nat
  arrayIndex : Nat
  cubeFace : Nat
deriving DecidableEq, Repr

/-- The bundle state: header record, hierarchy dimensions, blob table and
metadata store (KtxBundle.h lines 158-165).  A blob slot holds a byte list;
the empty list is an empty (never filled) slot, matching the header's
"the blob at the given index is empty" wording. -/
structure KtxBundle where
  info : KtxInfo
  numMipLevels : Nat
  arrayLength : Nat
  numCubeFaces : Nat
  blobs : List (List Nat)
  metadata : List (List Nat × List Nat)
deriving DecidableEq, Repr

/-- Error taxonomy of spec §7. -/
inductive KtxError where
  | OutOfRange
  | Empty
  | InsufficientBuffer
  | MalformedInput
deriving DecidableEq, Repr

instance (ε α : Type) [DecidableEq ε] [DecidableEq α] : DecidableEq (Except ε α) := fun x y =>
  match x, y with
  | .ok a, .ok b =>
    if h : a = b then isTrue (by rw [h]) else
      isFalse (fun hc => h (Except.ok.inj hc))
  | .error e, .error f =>
    if h : e = f then isTrue (by rw [h]) else
      isFalse (fun hc => h (Except.error.inj hc))
  | .ok _, .error _ => isFalse (fun hc => Except.noConfusion hc)
  | .error _, .ok _ => isFalse (fun hc => Except.noConfusion hc)

/-- KtxBundle.h line 156. -/
def ENDIAN_DEFAULT : Nat := 0x04030201

/-- The 12-byte identifier of the KTX container format (spec §6 item 1,
referencing the Khronos KTX file format). -/
def ktxMagic : List Nat :=
  [0xAB, 0x4B, 0x54, 0x58, 0x20, 0x31, 0x31, 0xBB, 0x0D, 0x0A, 0x1A, 0x0A]

/-- Empty construction (KtxBundle.h line 72, spec §4.4): fixes the hierarchy
shape, allocates `numMipLevels * arrayLength * numCubeFaces` empty slots;
the header record is zero-initialized (`mInfo = {}`). -/
def createEmpty (numMipLevels arrayLength : Nat) (isCubemap : Bool) : KtxBundle :=
  let faces := if isCubemap then 6 else 1
  { info := ⟨0, 0, 0, 0, 0, 0, 0, 0, 0⟩
    numMipLevels := numMipLevels
    arrayLength := arrayLength
    numCubeFaces := faces
    blobs := List.replicate (numMipLevels * arrayLength * faces) []
    metadata := [] }

/-- KtxBundle.h line 119: `isCubemap() { return mNumCubeFaces > 1; }`. -/
def KtxBundle.isCubemap (b : KtxBundle) : Bool := decide (1 < b.numCubeFaces)

/-- Modelled from the spec: §4.1 linearization —
`index = mipLevel * (arrayLength * numCubeFaces) + arrayIndex * numCubeFaces + cubeFace`. -/
def blobIndex (b : KtxBundle) (i : KtxBlobIndex) : Nat :=
  i.mipLevel * (b.arrayLength * b.numCubeFaces) + i.arrayIndex * b.numCubeFaces + i.cubeFace

/-- Modelled from the spec: §3 valid coordinate ranges, each axis bounded by
the corresponding hierarchy dimension. -/
def inBounds (b : KtxBundle) (i : KtxBlobIndex) : Prop :=
  i.mipLevel < b.numMipLevels ∧ i.arrayIndex < b.arrayLength ∧ i.cubeFace < b.numCubeFaces

instance (b : KtxBundle) (i : KtxBlobIndex) : Decidable (inBounds b i) := by
  unfold inBounds
  infer_instance

/-- Modelled from the spec: §4.1 getBlob — fails `OutOfRange` outside the
hierarchy bounds, `Empty` when the slot holds no bytes (KtxBundle.h line
122-123: "Returns false if the given blob index is out of bounds, or if the
blob at the given index is empty"), otherwise a view of the stored buffer. -/
def getBlob (b : KtxBundle) (i : KtxBlobIndex) : Except KtxError (List Nat) :=
  if inBounds b i then
    match b.blobs.getD (blobIndex b i) [] with
    | [] => Except.error KtxError.Empty
    | d => Except.ok d
  else Except.error KtxError.OutOfRange

/-- The successful-update part of setBlob: replace the slot's contents. -/
def bundleSet (b : KtxBundle) (i : KtxBlobIndex) (d : List Nat) : KtxBundle :=
  { b with blobs := b.blobs.set (blobIndex b i) d }

/-- Modelled from the spec: §4.1 setBlob — copies the bytes into the slot,
replacing prior contents entirely; fails `OutOfRange` out of bounds
(KtxBundle.h lines 127-131). -/
def setBlob (b : KtxBundle) (i : KtxBlobIndex) (d : List Nat) : Except KtxError KtxBundle :=
  if inBounds b i then Except.ok (bundleSet b i d) else Except.error KtxError.OutOfRange

/-- Modelled from the spec: §4.1 allocateBlob — reserves a buffer of exactly
`size` bytes (zero-filled policy), discarding prior content; fails
`OutOfRange` out of bounds (KtxBundle.h lines 133-137). -/
def allocateBlob (b : KtxBundle) (i : KtxBlobIndex) (size : Nat) : Except KtxError KtxBundle :=
  if inBounds b i then Except.ok (bundleSet b i (List.replicate size 0))
  else Except.error KtxError.OutOfRange

/-- Models mutation through the `info()` accessor (KtxBundle.h line 98). -/
def setInfo (b : KtxBundle) (inf : KtxInfo) : KtxBundle := { b with info := inf }

/-- Metadata lookup in the insertion-ordered store (spec §4.2). -/
def lookupMeta : List (List Nat × List Nat) → List Nat → Option (List Nat)
  | [], _ => none
  | (k, v) :: t, key => if k = key then some v else lookupMeta t key

/-- Modelled from the spec: §4.2 getMetadata — borrowed view of the stored
value, absent if the key is not present (KtxBundle.h line 103). -/
def getMetadata (b : KtxBundle) (key : List Nat) : Option (List Nat) :=
  lookupMeta b.metadata key

/-- Insert-or-overwrite in the insertion-ordered store (spec §4.2: keys
unique, re-setting a key overwrites it, not appends). -/
def setMeta : List (List Nat × List Nat) → List Nat → List Nat → List (List Nat × List Nat)
  | [], k, v => [(k, v)]
  | (k', v') :: t, k, v => if k' = k then (k, v) :: t else (k', v') :: setMeta t k v

/-- Modelled from the spec: §4.2 setMetadata (KtxBundle.h line 104). -/
def setMetadata (b : KtxBundle) (k v : List Nat) : KtxBundle :=
  { b with metadata := setMeta b.metadata k v }

/-- Byte size of a metadata entry's key/value payload: key, NUL, value
(spec §6 item 4). -/
def metaEntrySize (k v : List Nat) : Nat := k.length + 1 + v.length

/-- Modelled from the spec: §6 item 4 — one key/value entry: 4-byte entry
length, key, a NUL byte, value, zero-padding to the next 4-byte boundary. -/
def metaEntryBytes (k v : List Nat) : List Nat :=
  u32le (metaEntrySize k v) ++ k ++ [0] ++ v ++ List.replicate (pad4 (metaEntrySize k v)) 0

/-- The serialized key/value metadata section, in insertion order. -/
def metadataBytes : List (List Nat × List Nat) → List Nat
  | [] => []
  | (k, v) :: t => metaEntryBytes k v ++ metadataBytes t

/-- Byte count of the metadata section (`bytesOfKeyValueData`), computed
arithmetically, without building the bytes. -/
def metadataSize : List (List Nat × List Nat) → Nat
  | [] => 0
  | (k, v) :: t => 4 + metaEntrySize k v + pad4 (metaEntrySize k v) + metadataSize t

/-- Modelled from the spec: §6 item 5 — one blob: a 4-byte image-size field
followed by that many bytes, then zero-padding to the next 4-byte boundary. -/
def blobEntryBytes (d : List Nat) : List Nat :=
  u32le d.length ++ d ++ List.replicate (pad4 d.length) 0

/-- The serialized blob region, slots in increasing linearization order. -/
def blobsBytes : List (List Nat) → List Nat
  | [] => []
  | d :: t => blobEntryBytes d ++ blobsBytes t

/-- Byte count of the blob region, computed arithmetically from lengths. -/
def blobsSize : List (List Nat) → Nat
  | [] => 0
  | d :: t => 4 + d.length + pad4 d.length + blobsSize t

/-- Serialization of a list of 4-byte fields. -/
def fieldsBytes : List Nat → List Nat
  | [] => []
  | v :: t => u32le v ++ fieldsBytes t

/-- Modelled from the spec: §6 items 2-3 — the endianness marker (written in
the serializer's native order, i.e. `ENDIAN_DEFAULT`) followed by the twelve
header fields in fixed order: glType, glTypeSize, glFormat, glInternalFormat,
glBaseInternalFormat, pixelWidth, pixelHeight, pixelDepth,
numberOfArrayElements, numberOfFaces, numberOfMipmapLevels,
bytesOfKeyValueData. -/
def hdrFields (b : KtxBundle) : List Nat :=
  [ENDIAN_DEFAULT, b.info.glType, b.info.glTypeSize, b.info.glFormat,
   b.info.glInternalFormat, b.info.glBaseInternalFormat, b.info.pixelWidth,
   b.info.pixelHeight, b.info.pixelDepth, b.arrayLength, b.numCubeFaces,
   b.numMipLevels, metadataSize b.metadata]

/-- Modelled from the spec: §6 byte layout — magic, endianness marker and
header fields, key/value metadata section, then the blobs in linearization
order. -/
def serializeBytes (b : KtxBundle) : List Nat :=
  ktxMagic ++ (fieldsBytes (hdrFields b) ++ (metadataBytes b.metadata ++ blobsBytes b.blobs))

/-- Modelled from the spec: §4.4 getSerializedLength — fixed header size +
metadata section size + per-blob (4-byte size prefix + payload + padding),
accumulated arithmetically without copying any blob or metadata bytes. -/
def getSerializedLength (b : KtxBundle) : Nat :=
  64 + metadataSize b.metadata + blobsSize b.blobs

/-- Modelled from the spec: §4.4 serialize — checks capacity up front and
fails atomically with `InsufficientBuffer` (writing nothing) when the
destination is smaller than `getSerializedLength`. -/
def serialize (b : KtxBundle) (capacity : Nat) : Except KtxError (List Nat) :=
  if capacity < getSerializedLength b then Except.error KtxError.InsufficientBuffer
  else Except.ok (serializeBytes b)

/-- Read the `i`-th 4-byte header field (field 0 is the endianness marker,
located right after the 12-byte magic). -/
def fieldAt (bytes : List Nat) (i : Nat) : Nat := dec4 (bytes.drop (12 + 4 * i))

/-- Modelled from the spec: §4.4 parse — the blob-region walk: for each of
`n` slots read the 4-byte size field, take that many payload bytes and skip
the padding; `none` when a declared length exceeds the remaining input. -/
def parseBlobs : Nat → List Nat → Option (List (List Nat) × List Nat)
  | 0, bytes => some ([], bytes)
  | n + 1, bytes =>
    if bytes.length < 4 then none
    else
      let len := dec4 bytes
      let r := bytes.drop 4
      if r.length < len + pad4 len then none
      else
        match parseBlobs n (r.drop (len + pad4 len)) with
        | none => none
        | some (bs, rest) => some (r.take len :: bs, rest)

/-- Modelled from the spec: §4.4 parse construction — validates the magic
identifier and the endianness marker, rejects a hierarchy with zero mip
levels or zero array elements, checks every declared length against the
remaining input, then fills the blob table in linearization order.  Per the
header's warning (KtxBundle.h line 62) the embedded key/value section is
skipped, not reconstructed. -/
def parseAux (bytes : List Nat) : Option KtxBundle :=
  if bytes.length < 64 then none
  else if bytes.take 12 ≠ ktxMagic then none
  else if fieldAt bytes 0 ≠ ENDIAN_DEFAULT then none
  else if fieldAt bytes 11 = 0 then none
  else if fieldAt bytes 9 = 0 then none
  else if (bytes.drop 64).length < fieldAt bytes 12 then none
  else
    match parseBlobs (fieldAt bytes 11 * fieldAt bytes 9 * fieldAt bytes 10)
        ((bytes.drop 64).drop (fieldAt bytes 12)) with
    | none => none
    | some (blobs, _) =>
      some { info := { endianness := fieldAt bytes 0, glType := fieldAt bytes 1,
                       glTypeSize := fieldAt bytes 2, glFormat := fieldAt bytes 3,
                       glInternalFormat := fieldAt bytes 4,
                       glBaseInternalFormat := fieldAt bytes 5,
                       pixelWidth := fieldAt bytes 6, pixelHeight := fieldAt bytes 7,
                       pixelDepth := fieldAt bytes 8 }
             numMipLevels := fieldAt bytes 11
             arrayLength := fieldAt bytes 9
             numCubeFaces := fieldAt bytes 10
             blobs := blobs
             metadata := [] }

/-- Modelled from the spec: §7 — parse construction reports `MalformedInput`
via an explicit failure result, yielding no partially-initialized bundle. -/
def parse (bytes : List Nat) : Except KtxError KtxBundle :=
  match parseAux bytes with
  | some b => Except.ok b
  | none => Except.error KtxError.MalformedInput

/-- The well-formedness a bundle enjoys in the original program by virtue of
its `uint32_t` fields and the construction invariant: dimensions positive,
all 32-bit quantities in range, and the blob table sized to the hierarchy. -/
def KtxWf (b : KtxBundle) : Prop :=
  1 ≤ b.numMipLevels ∧ 1 ≤ b.arrayLength ∧
  b.numMipLevels < 4294967296 ∧ b.arrayLength < 4294967296 ∧ b.numCubeFaces < 4294967296 ∧
  b.info.glType < 4294967296 ∧ b.info.glTypeSize < 4294967296 ∧
  b.info.glFormat < 4294967296 ∧ b.info.glInternalFormat < 4294967296 ∧
  b.info.glBaseInternalFormat < 4294967296 ∧ b.info.pixelWidth < 4294967296 ∧
  b.info.pixelHeight < 4294967296 ∧ b.info.pixelDepth < 4294967296 ∧
  metadataSize b.metadata < 4294967296 ∧
  b.blobs.length = b.numMipLevels * b.arrayLength * b.numCubeFaces ∧
  (∀ d ∈ b.blobs, d.length < 4294967296)

instance (b : KtxBundle) : Decidable (KtxWf b) := by
  unfold KtxWf
  infer_instance

/-- The hierarchy shape plus the blob-table size of a bundle. -/
def shape (b : KtxBundle) : Nat × Nat × Nat × Nat :=
  (b.numMipLevels, b.arrayLength, b.numCubeFaces, b.blobs.length)

/-- The bundle states a client can hold after an empty construction (with the
documented nonzero dimensions, KtxBundle.h lines 107-114) followed by any
sequence of the public mutating operations. -/
inductive Reachable : KtxBundle → Prop where
  | create (m a : Nat) (c : Bool) : 1 ≤ m → 1 ≤ a → Reachable (createEmpty m a c)
  | setB (b : KtxBundle) (i : KtxBlobIndex) (d : List Nat) (b' : KtxBundle) :
      Reachable b → setBlob b i d = Except.ok b' → Reachable b'
  | allocB (b : KtxBundle) (i : KtxBlobIndex) (n : Nat) (b' : KtxBundle) :
      Reachable b → allocateBlob b i n = Except.ok b' → Reachable b'
  | setM (b : KtxBundle) (k v : List Nat) : Reachable b → Reachable (setMetadata b k v)
  | setI (b : KtxBundle) (inf : KtxInfo) : Reachable b → Reachable (setInfo b inf)

/-- Lexicographic order on blob coordinates: mip level slowest-varying,
cube face fastest-varying. -/
def coordLex (i j : KtxBlobIndex) : Prop :=
  i.mipLevel < j.mipLevel ∨ (i.mipLevel = j.mipLevel ∧
    (i.arrayIndex < j.arrayIndex ∨ (i.arrayIndex = j.arrayIndex ∧ i.cubeFace < j.cubeFace)))

instance (i j : KtxBlobIndex) : Decidable (coordLex i j) := by
  unfold coordLex
  infer_instance

/-- Modelled from the spec: the declarative counterpart of §7's
`MalformedInput` enumeration — the blob region fits when every declared
image size (plus its padding) is covered by the remaining input. -/
def blobsFit : Nat → List Nat → Bool
  | 0, _ => true
  | n + 1, bytes =>
    if bytes.length < 4 then false
    else
      let len := dec4 bytes
      let r := bytes.drop 4
      if r.length < len + pad4 len then false
      else blobsFit n (r.drop (len + pad4 len))

/-- Modelled from the spec: §7 — an input is well formed exactly when it is
at least the fixed header, carries the magic identifier and the standard
endianness marker, declares nonzero mip and array counts, and every declared
length (metadata section, per-blob sizes) fits the remaining input. -/
def wellFormedKtx (bytes : List Nat) : Bool :=
  decide (64 ≤ bytes.length) && decide (bytes.take 12 = ktxMagic) &&
  decide (fieldAt bytes 0 = ENDIAN_DEFAULT) && decide (fieldAt bytes 11 ≠ 0) &&
  decide (fieldAt bytes 9 ≠ 0) && decide (fieldAt bytes 12 ≤ (bytes.drop 64).length) &&
  blobsFit (fieldAt bytes 11 * fieldAt bytes 9 * fieldAt bytes 10)
    ((bytes.drop 64).drop (fieldAt bytes 12))

/-- The bundle of spec §8's concrete scenario: 1 mip, 1 layer, no cubemap,
with the two bytes "AB" stored at the only coordinate. -/
def c9Bundle : KtxBundle := bundleSet (createEmpty 1 1 false) ⟨0, 0, 0⟩ [65, 66]

/-! ### Length bookkeeping -/

lemma length_u32le (v : Nat) : (u32le v).length = 4 := rfl

lemma length_metaEntryBytes (k v : List Nat) :
    (metaEntryBytes k v).length = 4 + metaEntrySize k v + pad4 (metaEntrySize k v) := by
  simp [metaEntryBytes, metaEntrySize, u32le]
  omega

lemma length_metadataBytes (m : List (List Nat × List Nat)) :
    (metadataBytes m).length = metadataSize m := by
  induction m with
  | nil => rfl
  | cons e t ih =>
    obtain ⟨k, v⟩ := e
    simp only [metadataBytes, metadataSize, List.length_append, length_metaEntryBytes, ih]

lemma length_blobEntryBytes (d : List Nat) :
    (blobEntryBytes d).length = 4 + d.length + pad4 d.length := by
  simp [blobEntryBytes, u32le]
  omega

lemma length_blobsBytes (bs : List (List Nat)) : (blobsBytes bs).length = blobsSize bs := by
  induction bs with
  | nil => rfl
  | cons d t ih =>
    simp only [blobsBytes, blobsSize, List.length_append, length_blobEntryBytes, ih]

lemma length_fieldsBytes (vs : List Nat) : (fieldsBytes vs).length = 4 * vs.length := by
  induction vs with
  | nil => rfl
  | cons v t ih =>
    simp only [fieldsBytes, List.length_append, length_u32le, ih, List.length_cons]
    omega

lemma length_serializeBytes (b : KtxBundle) :
    (serializeBytes b).length = getSerializedLength b := by
  simp only [serializeBytes, getSerializedLength, List.length_append, length_fieldsBytes,
    length_metadataBytes, length_blobsBytes]
  simp [ktxMagic, hdrFields]
  omega

/-! ### Positional reasoning on the serialized byte list -/

lemma take_len (l1 l2 : List Nat) : (l1 ++ l2).take l1.length = l1 := by
  induction l1 with
  | nil => rfl
  | cons a t ih => simp [ih]

lemma drop_len_add (l1 l2 : List Nat) (n : Nat) : (l1 ++ l2).drop (l1.length + n) = l2.drop n := by
  induction l1 with
  | nil => simp
  | cons a t ih =>
    have h : (a :: t).length + n = (t.length + n) + 1 := by simp; omega
    rw [h, List.cons_append, List.drop_succ_cons, ih]

lemma drop_len (l1 l2 : List Nat) : (l1 ++ l2).drop l1.length = l2 := by
  simp

lemma dec4_u32le (v : Nat) (rest : List Nat) : dec4 (u32le v ++ rest) = v % 4294967296 := by
  simp only [dec4, u32le, List.cons_append, List.nil_append, List.getD_cons_zero,
    List.getD_cons_succ]
  omega

lemma drop4_u32le (v : Nat) (rest : List Nat) : (u32le v ++ rest).drop 4 = rest := rfl

lemma dec4_fieldsBytes (vs : List Nat) :
    ∀ (rest : List Nat) (i : Nat), i < vs.length →
      dec4 ((fieldsBytes vs ++ rest).drop (4 * i)) = vs.getD i 0 % 4294967296 := by
  induction vs with
  | nil => intro rest i h; simp at h
  | cons v t ih =>
    intro rest i h
    cases i with
    | zero =>
      simp only [fieldsBytes, List.append_assoc, Nat.mul_zero, List.drop_zero,
        List.getD_cons_zero]
      exact dec4_u32le v (fieldsBytes t ++ rest)
    | succ i' =>
      have h4 : 4 * (i' + 1) = (u32le v).length + 4 * i' := by
        simp [length_u32le]
        omega
      simp only [fieldsBytes, List.append_assoc, h4, List.getD_cons_succ]
      rw [drop_len_add]
      exact ih rest i' (by simpa using h)

lemma fieldAt_serializeBytes (b : KtxBundle) (i : Nat) (h : i < 13) :
    fieldAt (serializeBytes b) i = (hdrFields b).getD i 0 % 4294967296 := by
  unfold fieldAt serializeBytes
  have h12 : 12 + 4 * i = ktxMagic.length + 4 * i := by simp [ktxMagic]
  rw [h12, drop_len_add]
  exact dec4_fieldsBytes (hdrFields b) _ i (by simpa [hdrFields] using h)

lemma take12_serializeBytes (b : KtxBundle) : (serializeBytes b).take 12 = ktxMagic := by
  unfold serializeBytes
  have h12 : (12 : Nat) = ktxMagic.length := by simp [ktxMagic]
  rw [h12, take_len]

lemma drop64_serializeBytes (b : KtxBundle) :
    (serializeBytes b).drop 64 = metadataBytes b.metadata ++ blobsBytes b.blobs := by
  unfold serializeBytes
  have h64 : (64 : Nat) = ktxMagic.length + (fieldsBytes (hdrFields b)).length := by
    simp [ktxMagic, length_fieldsBytes, hdrFields]
  rw [h64, drop_len_add, drop_len]

/-! ### Parsing the serialized blob region -/

lemma parseBlobs_cons (n : Nat) (d : List Nat) (X : List Nat) (hd : d.length < 4294967296) :
    parseBlobs (n + 1) (blobEntryBytes d ++ X) =
      match parseBlobs n X with
      | none => none
      | some (bs, rest) => some (d :: bs, rest) := by
  have h1 : blobEntryBytes d ++ X =
      u32le d.length ++ (d ++ (List.replicate (pad4 d.length) 0 ++ X)) := by
    simp [blobEntryBytes, List.append_assoc]
  rw [h1]
  have hlen1 : ¬ ((u32le d.length ++ (d ++ (List.replicate (pad4 d.length) 0 ++ X))).length < 4) := by
    simp [u32le]
  have hlen2 : ¬ ((d ++ (List.replicate (pad4 d.length) 0 ++ X)).length <
      d.length + pad4 d.length) := by
    simp
  have hdrop : (d ++ (List.replicate (pad4 d.length) 0 ++ X)).drop (d.length + pad4 d.length) = X := by
    rw [← List.append_assoc]
    have h2 : d.length + pad4 d.length = (d ++ List.replicate (pad4 d.length) 0).length := by
      simp
    rw [h2, drop_len]
  have htake : (d ++ (List.replicate (pad4 d.length) 0 ++ X)).take d.length = d :=
    take_len d (List.replicate (pad4 d.length) 0 ++ X)
  simp only [parseBlobs, dec4_u32le, Nat.mod_eq_of_lt hd, drop4_u32le]
  rw [if_neg hlen1, if_neg hlen2, hdrop, htake]

lemma parseBlobs_blobsBytes (bs : List (List Nat)) :
    ∀ rest, (∀ d ∈ bs, d.length < 4294967296) →
      parseBlobs bs.length (blobsBytes bs ++ rest) = some (bs, rest) := by
  induction bs with
  | nil => intro rest h; simp [parseBlobs, blobsBytes]
  | cons d t ih =>
    intro rest h
    have hd : d.length < 4294967296 := h d (List.mem_cons_self d t)
    have ht : ∀ x ∈ t, x.length < 4294967296 := fun x hx => h x (List.mem_cons_of_mem d hx)
    have hb : blobsBytes (d :: t) ++ rest = blobEntryBytes d ++ (blobsBytes t ++ rest) := by
      simp [blobsBytes, List.append_assoc]
    rw [List.length_cons, hb, parseBlobs_cons t.length d (blobsBytes t ++ rest) hd, ih rest ht]

/-- C1: for every reachable Bundle state, `getSerializedLength` returns exactly
the number of bytes `serialize` writes into a sufficiently large destination
(`getSerializedLength` itself is defined purely arithmetically over stored
lengths, copying no blob or metadata bytes). -/
theorem ktx_serializedLength_eq_serialize_length :
    ∀ (b : KtxBundle) (capacity : Nat), getSerializedLength b ≤ capacity →
      serialize b capacity = Except.ok (serializeBytes b) ∧
      (serializeBytes b).length = getSerializedLength b := by
  intro b capacity h
  refine ⟨?_, length_serializeBytes b⟩
  unfold serialize
  rw [if_neg (Nat.not_lt.mpr h)]

/-- Witness for C1 at a concrete bundle and a destination of exactly the
computed size. -/
theorem ktx_serializedLength_eq_serialize_length_witness :
    serialize (createEmpty 1 1 false) 68 = Except.ok (serializeBytes (createEmpty 1 1 false)) ∧
    (serializeBytes (createEmpty 1 1 false)).length = getSerializedLength (createEmpty 1 1 false) :=
  ktx_serializedLength_eq_serialize_length (createEmpty 1 1 false) 68 (by decide)

/-- C2 (amended): for every well-formed Bundle whose header endianness field
holds the standard marker `ENDIAN_DEFAULT`, parsing the serialized bytes
yields a Bundle with identical header fields, identical hierarchy shape and
byte-identical blob contents (the metadata store of the parsed bundle is
empty, as parse construction discards the key/value section). -/
theorem ktx_parse_serialize_roundtrip :
    ∀ b : KtxBundle, KtxWf b → b.info.endianness = ENDIAN_DEFAULT →
      parse (serializeBytes b) = Except.ok { b with metadata := [] } := by
  intro b hwf he
  obtain ⟨h1, h2, h3, h4, h5, g1, g2, g3, g4, g5, g6, g7, g8, hm, hbl, hall⟩ := hwf
  suffices h : ∀ sb : List Nat, sb = serializeBytes b →
      parse sb = Except.ok { b with metadata := [] } from h _ rfl
  intro sb hsb
  have hf : ∀ i, i < 13 → fieldAt sb i = (hdrFields b).getD i 0 % 4294967296 := by
    rw [hsb]
    exact fieldAt_serializeBytes b
  have hf0 : fieldAt sb 0 = ENDIAN_DEFAULT := by
    rw [hf 0 (by norm_num)]
    simp only [hdrFields, List.getD_cons_zero, List.getD_cons_succ]
    norm_num [ENDIAN_DEFAULT]
  have hf1 : fieldAt sb 1 = b.info.glType := by
    rw [hf 1 (by norm_num)]
    simp only [hdrFields, List.getD_cons_zero, List.getD_cons_succ]
    exact Nat.mod_eq_of_lt g1
  have hf2 : fieldAt sb 2 = b.info.glTypeSize := by
    rw [hf 2 (by norm_num)]
    simp only [hdrFields, List.getD_cons_zero, List.getD_cons_succ]
    exact Nat.mod_eq_of_lt g2
  have hf3 : fieldAt sb 3 = b.info.glFormat := by
    rw [hf 3 (by norm_num)]
    simp only [hdrFields, List.getD_cons_zero, List.getD_cons_succ]
    exact Nat.mod_eq_of_lt g3
  have hf4 : fieldAt sb 4 = b.info.glInternalFormat := by
    rw [hf 4 (by norm_num)]
    simp only [hdrFields, List.getD_cons_zero, List.getD_cons_succ]
    exact Nat.mod_eq_of_lt g4
  have hf5 : fieldAt sb 5 = b.info.glBaseInternalFormat := by
    rw [hf 5 (by norm_num)]
    simp only [hdrFields, List.getD_cons_zero, List.getD_cons_succ]
    exact Nat.mod_eq_of_lt g5
  have hf6 : fieldAt sb 6 = b.info.pixelWidth := by
    rw [hf 6 (by norm_num)]
    simp only [hdrFields, List.getD_cons_zero, List.getD_cons_succ]
    exact Nat.mod_eq_of_lt g6
  have hf7 : fieldAt sb 7 = b.info.pixelHeight := by
    rw [hf 7 (by norm_num)]
    simp only [hdrFields, List.getD_cons_zero, List.getD_cons_succ]
    exact Nat.mod_eq_of_lt g7
  have hf8 : fieldAt sb 8 = b.info.pixelDepth := by
    rw [hf 8 (by norm_num)]
    simp only [hdrFields, List.getD_cons_zero, List.getD_cons_succ]
    exact Nat.mod_eq_of_lt g8
  have hf9 : fieldAt sb 9 = b.arrayLength := by
    rw [hf 9 (by norm_num)]
    simp only [hdrFields, List.getD_cons_zero, List.getD_cons_succ]
    exact Nat.mod_eq_of_lt h4
  have hf10 : fieldAt sb 10 = b.numCubeFaces := by
    rw [hf 10 (by norm_num)]
    simp only [hdrFields, List.getD_cons_zero, List.getD_cons_succ]
    exact Nat.mod_eq_of_lt h5
  have hf11 : fieldAt sb 11 = b.numMipLevels := by
    rw [hf 11 (by norm_num)]
    simp only [hdrFields, List.getD_cons_zero, List.getD_cons_succ]
    exact Nat.mod_eq_of_lt h3
  have hf12 : fieldAt sb 12 = metadataSize b.metadata := by
    rw [hf 12 (by norm_num)]
    simp only [hdrFields, List.getD_cons_zero, List.getD_cons_succ]
    exact Nat.mod_eq_of_lt hm
  have hL : ¬ (sb.length < 64) := by
    rw [hsb, length_serializeBytes]
    unfold getSerializedLength
    omega
  have hM : ¬ (sb.take 12 ≠ ktxMagic) := by
    rw [hsb, take12_serializeBytes]
    simp
  have hend : ¬ (fieldAt sb 0 ≠ ENDIAN_DEFAULT) := by
    simp [hf0]
  have hmip : ¬ (fieldAt sb 11 = 0) := by
    rw [hf11]
    omega
  have harr : ¬ (fieldAt sb 9 = 0) := by
    rw [hf9]
    omega
  have hkvd : ¬ ((sb.drop 64).length < fieldAt sb 12) := by
    rw [hf12, hsb, drop64_serializeBytes]
    simp [length_metadataBytes, length_blobsBytes]
  have hdropkvd : (sb.drop 64).drop (fieldAt sb 12) = blobsBytes b.blobs := by
    rw [hf12, hsb, drop64_serializeBytes, ← length_metadataBytes, drop_len]
  have hcount : fieldAt sb 11 * fieldAt sb 9 * fieldAt sb 10 = b.blobs.length := by
    rw [hf11, hf9, hf10, hbl]
  have hpb : parseBlobs b.blobs.length (blobsBytes b.blobs) = some (b.blobs, []) := by
    have h := parseBlobs_blobsBytes b.blobs [] hall
    simpa using h
  unfold parse
  unfold parseAux
  rw [if_neg hL, if_neg hM, if_neg hend, if_neg hmip, if_neg harr, if_neg hkvd, hdropkvd,
    hcount, hpb, hf0, hf1, hf2, hf3, hf4, hf5, hf6, hf7, hf8, hf9, hf10, hf11]
  rw [← he]

/-- C2 counterexample: the freshly created Bundle has a zero-initialized
header record, so its endianness field is 0; parsing its serialization
succeeds but yields a header whose endianness field is the standard marker,
not 0 — the round trip does not reproduce identical header fields for every
Bundle. -/
theorem ktx_roundtrip_cex :
    ((parse (serializeBytes (createEmpty 1 1 false))).toOption.getD
        (createEmpty 1 1 false)).info.endianness ≠
      (createEmpty 1 1 false).info.endianness ∧
    (parse (serializeBytes (createEmpty 1 1 false))).isOk = true := by
  decide

/-- Witness for the amended C2 at a concrete bundle with the marker set. -/
theorem ktx_parse_serialize_roundtrip_witness :
    parse (serializeBytes (setInfo (createEmpty 1 1 false) ⟨ENDIAN_DEFAULT, 0, 0, 0, 0, 0, 0, 0, 0⟩)) =
      Except.ok { setInfo (createEmpty 1 1 false) ⟨ENDIAN_DEFAULT, 0, 0, 0, 0, 0, 0, 0, 0⟩ with
        metadata := [] } :=
  ktx_parse_serialize_roundtrip
    (setInfo (createEmpty 1 1 false) ⟨ENDIAN_DEFAULT, 0, 0, 0, 0, 0, 0, 0, 0⟩)
    (by decide) (by decide)

/-! ### The hierarchy-shape invariant (C3) -/

lemma shape_setBlob (b : KtxBundle) (i : KtxBlobIndex) (d : List Nat) (b' : KtxBundle)
    (h : setBlob b i d = Except.ok b') : shape b' = shape b := by
  unfold setBlob at h
  split at h
  · cases h
    simp [bundleSet, shape, List.length_set]
  · exact Except.noConfusion h

lemma shape_allocateBlob (b : KtxBundle) (i : KtxBlobIndex) (n : Nat) (b' : KtxBundle)
    (h : allocateBlob b i n = Except.ok b') : shape b' = shape b := by
  unfold allocateBlob at h
  split at h
  · cases h
    simp [bundleSet, shape, List.length_set]
  · exact Except.noConfusion h

lemma shape_setMetadata (b : KtxBundle) (k v : List Nat) : shape (setMetadata b k v) = shape b :=
  rfl

lemma shape_setInfo (b : KtxBundle) (inf : KtxInfo) : shape (setInfo b inf) = shape b :=
  rfl

lemma reachable_inv (b : KtxBundle) (h : Reachable b) :
    b.blobs.length = b.numMipLevels * b.arrayLength * b.numCubeFaces ∧
    (b.numCubeFaces = 1 ∨ b.numCubeFaces = 6) := by
  induction h with
  | create m a c h1 h2 =>
    refine ⟨?_, ?_⟩
    · simp [createEmpty]
    · cases c
      · exact Or.inl (by simp [createEmpty])
      · exact Or.inr (by simp [createEmpty])
  | setB b i d b' hr heq ih =>
    have hs := shape_setBlob b i d b' heq
    unfold shape at hs
    simp only [Prod.mk.injEq] at hs
    obtain ⟨e1, e2, e3, e4⟩ := hs
    rw [e1, e2, e3, e4]
    exact ih
  | allocB b i n b' hr heq ih =>
    have hs := shape_allocateBlob b i n b' heq
    unfold shape at hs
    simp only [Prod.mk.injEq] at hs
    obtain ⟨e1, e2, e3, e4⟩ := hs
    rw [e1, e2, e3, e4]
    exact ih
  | setM b k v hr ih => exact ih
  | setI b inf hr ih => exact ih

/-- C3: for every validly constructed bundle, the blob-table size equals
`numMipLevels * arrayLength * (isCubemap ? 6 : 1)`, and the three hierarchy
dimensions together with the blob count are preserved by every mutating
operation (`serialize`, `getSerializedLength` and `getBlob` are pure
functions of the bundle in this model, so they cannot change it at all). -/
theorem ktx_blobCount_invariant :
    ∀ b : KtxBundle, Reachable b →
      (b.blobs.length = b.numMipLevels * b.arrayLength * (if b.isCubemap then 6 else 1)) ∧
      (∀ i d b', setBlob b i d = Except.ok b' → shape b' = shape b) ∧
      (∀ i n b', allocateBlob b i n = Except.ok b' → shape b' = shape b) ∧
      (∀ k v, shape (setMetadata b k v) = shape b) ∧
      (∀ inf, shape (setInfo b inf) = shape b) := by
  intro b h
  obtain ⟨hlen, hfaces⟩ := reachable_inv b h
  refine ⟨?_, fun i d b' => shape_setBlob b i d b', fun i n b' => shape_allocateBlob b i n b',
    fun k v => shape_setMetadata b k v, fun inf => shape_setInfo b inf⟩
  rcases hfaces with h1 | h6
  · rw [hlen, h1]
    simp [KtxBundle.isCubemap, h1]
  · rw [hlen, h6]
    simp [KtxBundle.isCubemap, h6]

/-- Witness for C3 on a concrete cubemap bundle. -/
theorem ktx_blobCount_invariant_witness :
    (createEmpty 2 1 true).blobs.length =
      2 * 1 * (if (createEmpty 2 1 true).isCubemap then 6 else 1) :=
  (ktx_blobCount_invariant (createEmpty 2 1 true)
    (Reachable.create 2 1 true (by norm_num) (by norm_num))).1

/-! ### Linearization order (C4) -/

lemma digit_bound (A F x y : Nat) (hx : x < A) (hy : y < F) : x * F + y < A * F := by
  calc x * F + y < x * F + F := Nat.add_lt_add_left hy _
    _ = (x + 1) * F := (Nat.succ_mul x F).symm
    _ ≤ A * F := Nat.mul_le_mul hx (Nat.le_refl F)

lemma digit_lt_iff (B a1 b1 a2 b2 : Nat) (hb1 : b1 < B) (hb2 : b2 < B) :
    a1 * B + b1 < a2 * B + b2 ↔ (a1 < a2 ∨ (a1 = a2 ∧ b1 < b2)) := by
  constructor
  · intro h
    by_cases hlt : a1 < a2
    · exact Or.inl hlt
    · have ha : a2 ≤ a1 := Nat.not_lt.mp hlt
      rcases Nat.eq_or_lt_of_le ha with heq | hgt
      · subst heq
        exact Or.inr ⟨rfl, Nat.lt_of_add_lt_add_left h⟩
      · exfalso
        have h4 : a2 * B + b2 < a1 * B + b1 :=
          Nat.lt_of_lt_of_le
            (Nat.lt_of_lt_of_le (Nat.add_lt_add_left hb2 _)
              (by calc a2 * B + B = (a2 + 1) * B := (Nat.succ_mul a2 B).symm
                _ ≤ a1 * B := Nat.mul_le_mul hgt (Nat.le_refl B)))
            (Nat.le_add_right _ _)
        exact Nat.lt_irrefl _ (Nat.lt_trans h h4)
  · intro h
    rcases h with hlt | ⟨heq, hb⟩
    · have h1 : a1 * B + b1 < (a1 + 1) * B := by
        rw [Nat.succ_mul]
        exact Nat.add_lt_add_left hb1 _
      exact Nat.lt_of_lt_of_le (Nat.lt_of_lt_of_le h1 (Nat.mul_le_mul hlt (Nat.le_refl B)))
        (Nat.le_add_right _ _)
    · subst heq
      exact Nat.add_lt_add_left hb _

lemma blobIndex_lt_iff (b : KtxBundle) (i j : KtxBlobIndex)
    (hi : inBounds b i) (hj : inBounds b j) :
    blobIndex b i < blobIndex b j ↔ coordLex i j := by
  obtain ⟨hi1, hi2, hi3⟩ := hi
  obtain ⟨hj1, hj2, hj3⟩ := hj
  have e1 : blobIndex b i = i.mipLevel * (b.arrayLength * b.numCubeFaces) +
      (i.arrayIndex * b.numCubeFaces + i.cubeFace) := by
    unfold blobIndex
    ring
  have e2 : blobIndex b j = j.mipLevel * (b.arrayLength * b.numCubeFaces) +
      (j.arrayIndex * b.numCubeFaces + j.cubeFace) := by
    unfold blobIndex
    ring
  rw [e1, e2,
    digit_lt_iff _ _ _ _ _ (digit_bound _ _ _ _ hi2 hi3) (digit_bound _ _ _ _ hj2 hj3),
    digit_lt_iff _ _ _ _ _ hi3 hj3]
  rfl

lemma blobIndex_lt_count (b : KtxBundle) (i : KtxBlobIndex) (h : inBounds b i) :
    blobIndex b i < b.numMipLevels * (b.arrayLength * b.numCubeFaces) := by
  obtain ⟨h1, h2, h3⟩ := h
  have e1 : blobIndex b i = i.mipLevel * (b.arrayLength * b.numCubeFaces) +
      (i.arrayIndex * b.numCubeFaces + i.cubeFace) := by
    unfold blobIndex
    ring
  rw [e1]
  exact digit_bound _ _ _ _ h1 (digit_bound _ _ _ _ h2 h3)

lemma blobsBytes_drop_at (bs : List (List Nat)) :
    ∀ s, s < bs.length →
      (blobsBytes bs).drop (blobsSize (bs.take s)) =
        blobEntryBytes (bs.getD s []) ++ blobsBytes (bs.drop (s + 1)) := by
  induction bs with
  | nil => intro s h; simp at h
  | cons d t ih =>
    intro s h
    cases s with
    | zero => simp [blobsSize, blobsBytes]
    | succ s' =>
      have h' : s' < t.length := by simpa using h
      simp only [List.take_succ_cons, blobsSize, blobsBytes, List.getD_cons_succ,
        List.drop_succ_cons]
      have harr : 4 + d.length + pad4 d.length + blobsSize (t.take s') =
          (blobEntryBytes d).length + blobsSize (t.take s') := by
        rw [length_blobEntryBytes]
      rw [harr, drop_len_add]
      exact ih s' h'

/-- C4: for in-bounds coordinates the linearization index compares exactly as
the lexicographic (mip, array, face) order — mip level slowest-varying, face
fastest-varying — the index stays inside the blob table, and the serialized
byte stream carries the blob entries in exactly increasing slot order: after
the bytes of the first `s` slots comes slot `s`'s length-prefixed entry,
followed by the entries of slots `s+1, s+2, …`. -/
theorem ktx_linearization_order :
    ∀ (b : KtxBundle) (i j : KtxBlobIndex), inBounds b i → inBounds b j →
      ((blobIndex b i < blobIndex b j ↔ coordLex i j) ∧
       (b.blobs.length = b.numMipLevels * b.arrayLength * b.numCubeFaces →
         blobIndex b i < b.blobs.length) ∧
       (∀ s, s < b.blobs.length →
         (blobsBytes b.blobs).drop (blobsSize (b.blobs.take s)) =
           blobEntryBytes (b.blobs.getD s []) ++ blobsBytes (b.blobs.drop (s + 1)))) := by
  intro b i j hi hj
  refine ⟨blobIndex_lt_iff b i j hi hj, ?_, fun s hs => blobsBytes_drop_at b.blobs s hs⟩
  intro hlen
  rw [hlen, Nat.mul_assoc]
  exact blobIndex_lt_count b i hi

/-- Witness for C4: in a two-mip cubemap, face 1 of mip 0 precedes face 0 of
mip 1 in the slot order. -/
theorem ktx_linearization_order_witness :
    blobIndex (createEmpty 2 1 true) ⟨0, 0, 1⟩ < blobIndex (createEmpty 2 1 true) ⟨1, 0, 0⟩ :=
  ((ktx_linearization_order (createEmpty 2 1 true) ⟨0, 0, 1⟩ ⟨1, 0, 0⟩
    (by decide) (by decide)).1).mpr (by decide)

/-! ### Blob accessor error behaviour (C5, C6) -/

lemma getD_replicate_nil (n i : Nat) : (List.replicate n ([] : List Nat)).getD i [] = [] := by
  induction n generalizing i with
  | zero => simp
  | succ n ih =>
    cases i with
    | zero => simp
    | succ i' => exact ih i'

lemma getD_set_self (l : List (List Nat)) (n : Nat) (a : List Nat) (h : n < l.length) :
    (l.set n a).getD n [] = a := by
  induction l generalizing n with
  | nil => simp at h
  | cons x xs ih =>
    cases n with
    | zero => rfl
    | succ n' =>
      simp only [List.set, List.getD_cons_succ]
      exact ih n' (by simpa using h)

lemma getD_set_ne (l : List (List Nat)) (m n : Nat) (a : List Nat) (h : m ≠ n) :
    (l.set m a).getD n [] = l.getD n [] := by
  induction l generalizing m n with
  | nil => simp
  | cons x xs ih =>
    cases m with
    | zero =>
      cases n with
      | zero => exact absurd rfl h
      | succ n' => rfl
    | succ m' =>
      cases n with
      | zero => rfl
      | succ n' =>
        simp only [List.set, List.getD_cons_succ]
        exact ih m' n' (fun hc => h (by rw [hc]))

/-- C5: `getBlob` reports `OutOfRange` exactly when some axis of the
coordinate is out of bounds (each axis independently); on any in-bounds
coordinate of a freshly created bundle — whose slots were never allocated or
set — it reports `Empty`; and on an in-bounds coordinate whose slot holds
bytes it succeeds with a view of exactly the stored buffer. -/
theorem ktx_getBlob_errors :
    ∀ (b : KtxBundle) (i : KtxBlobIndex),
      (getBlob b i = Except.error KtxError.OutOfRange ↔
        (b.numMipLevels ≤ i.mipLevel ∨ b.arrayLength ≤ i.arrayIndex ∨
         b.numCubeFaces ≤ i.cubeFace)) ∧
      (∀ m a c, inBounds (createEmpty m a c) i →
        getBlob (createEmpty m a c) i = Except.error KtxError.Empty) ∧
      (inBounds b i → b.blobs.getD (blobIndex b i) [] ≠ [] →
        getBlob b i = Except.ok (b.blobs.getD (blobIndex b i) [])) := by
  intro b i
  refine ⟨?_, ?_, ?_⟩
  · constructor
    · intro hc
      by_contra hcon
      push_neg at hcon
      obtain ⟨c1, c2, c3⟩ := hcon
      have hb : inBounds b i := ⟨c1, c2, c3⟩
      unfold getBlob at hc
      rw [if_pos hb] at hc
      split at hc
      · exact KtxError.noConfusion (Except.error.inj hc)
      · exact Except.noConfusion hc
    · intro hc
      have hnb : ¬ inBounds b i := by
        unfold inBounds
        omega
      unfold getBlob
      rw [if_neg hnb]
  · intro m a c hin
    unfold getBlob
    rw [if_pos hin]
    have hsl : (createEmpty m a c).blobs.getD (blobIndex (createEmpty m a c) i) [] = [] := by
      unfold createEmpty
      exact getD_replicate_nil _ _
    rw [hsl]
  · intro hin hne
    unfold getBlob
    rw [if_pos hin]
    rcases hX : b.blobs.getD (blobIndex b i) [] with _ | ⟨x, xs⟩
    · exact absurd hX hne
    · rfl

/-- Witness for C5: a never-touched in-bounds slot reads back `Empty`. -/
theorem ktx_getBlob_errors_witness :
    getBlob (createEmpty 1 1 false) ⟨0, 0, 0⟩ = Except.error KtxError.Empty :=
  (ktx_getBlob_errors (createEmpty 1 1 false) ⟨0, 0, 0⟩).2.1 1 1 false (by decide)

/-- C6 counterexample: setting a blob of size 0 succeeds, but `getBlob` on
that coordinate then fails with `Empty` (the slot holds an empty buffer and
the header documents that an empty blob makes `getBlob` fail) instead of
succeeding with zero bytes as the claim requires for every size. -/
theorem ktx_setBlob_zero_cex :
    (setBlob (createEmpty 1 1 false) ⟨0, 0, 0⟩ []).isOk = true ∧
    getBlob ((setBlob (createEmpty 1 1 false) ⟨0, 0, 0⟩ []).toOption.getD
        (createEmpty 1 1 false)) ⟨0, 0, 0⟩ = Except.error KtxError.Empty := by
  decide

/-- C6 (amended): for every bundle whose blob table matches its hierarchy,
every in-bounds coordinate and every *nonempty* byte sequence, `setBlob`
succeeds, `getBlob` then returns exactly the bytes written (prior contents
entirely replaced), and every other slot is untouched; `setBlob` on an
out-of-bounds coordinate fails with `OutOfRange` and produces no updated
bundle (a zero-size `setBlob` succeeds but leaves the slot empty, so
`getBlob` then reports `Empty`). -/
theorem ktx_setBlob_getBlob :
    ∀ (b : KtxBundle) (i : KtxBlobIndex) (d : List Nat),
      b.blobs.length = b.numMipLevels * b.arrayLength * b.numCubeFaces →
      ((inBounds b i → d ≠ [] →
        setBlob b i d = Except.ok (bundleSet b i d) ∧
        getBlob (bundleSet b i d) i = Except.ok d ∧
        (∀ j, inBounds b j → blobIndex b j ≠ blobIndex b i →
          getBlob (bundleSet b i d) j = getBlob b j)) ∧
       (¬ inBounds b i → setBlob b i d = Except.error KtxError.OutOfRange)) := by
  intro b i d hlen
  constructor
  · intro hin hne
    refine ⟨?_, ?_, ?_⟩
    · unfold setBlob
      rw [if_pos hin]
    · unfold getBlob
      have hin' : inBounds (bundleSet b i d) i := hin
      rw [if_pos hin']
      have hget : (bundleSet b i d).blobs.getD (blobIndex (bundleSet b i d) i) [] = d := by
        have hidx : blobIndex (bundleSet b i d) i = blobIndex b i := rfl
        rw [hidx]
        unfold bundleSet
        have hlt : blobIndex b i < b.blobs.length := by
          rw [hlen, Nat.mul_assoc]
          exact blobIndex_lt_count b i hin
        exact getD_set_self b.blobs (blobIndex b i) d hlt
      rw [hget]
      rcases d with _ | ⟨x, xs⟩
      · exact absurd rfl hne
      · rfl
    · intro j hjin hne'
      unfold getBlob
      have hjin' : inBounds (bundleSet b i d) j := hjin
      rw [if_pos hjin', if_pos hjin]
      have hgetj : (bundleSet b i d).blobs.getD (blobIndex (bundleSet b i d) j) [] =
          b.blobs.getD (blobIndex b j) [] := by
        have hidxj : blobIndex (bundleSet b i d) j = blobIndex b j := rfl
        rw [hidxj]
        unfold bundleSet
        exact getD_set_ne b.blobs (blobIndex b i) (blobIndex b j) d (Ne.symm hne')
      rw [hgetj]
  · intro hnin
    unfold setBlob
    rw [if_neg hnin]

/-- Witness for the amended C6 with the two payload bytes replaced and read
back at the only coordinate. -/
theorem ktx_setBlob_getBlob_witness :
    setBlob (createEmpty 1 1 false) ⟨0, 0, 0⟩ [7] =
      Except.ok (bundleSet (createEmpty 1 1 false) ⟨0, 0, 0⟩ [7]) ∧
    getBlob (bundleSet (createEmpty 1 1 false) ⟨0, 0, 0⟩ [7]) ⟨0, 0, 0⟩ = Except.ok [7] :=
  ⟨((ktx_setBlob_getBlob (createEmpty 1 1 false) ⟨0, 0, 0⟩ [7] (by decide)).1
      (by decide) (by decide)).1,
   ((ktx_setBlob_getBlob (createEmpty 1 1 false) ⟨0, 0, 0⟩ [7] (by decide)).1
      (by decide) (by decide)).2.1⟩

/-! ### Serialization into an undersized destination (C7) -/

/-- C7: `serialize` with a destination capacity strictly below
`getSerializedLength` fails with `InsufficientBuffer`, producing no output
bytes (the capacity check happens before anything is written, and the
bundle itself is untouched — `serialize` is a pure function of it). -/
theorem ktx_serialize_insufficient :
    ∀ (b : KtxBundle) (capacity : Nat), capacity < getSerializedLength b →
      serialize b capacity = Except.error KtxError.InsufficientBuffer := by
  intro b capacity h
  unfold serialize
  rw [if_pos h]

/-- Witness for C7: a destination exactly one byte shorter than the
computed length is rejected. -/
theorem ktx_serialize_insufficient_witness :
    serialize (createEmpty 1 1 false) 67 = Except.error KtxError.InsufficientBuffer :=
  ktx_serialize_insufficient (createEmpty 1 1 false) 67 (by decide)

/-! ### Characterization of MalformedInput (C8) -/

lemma parseBlobs_isSome_iff (n : Nat) :
    ∀ bytes, (parseBlobs n bytes).isSome = blobsFit n bytes := by
  induction n with
  | zero => intro bytes; rfl
  | succ n ih =>
    intro bytes
    simp only [parseBlobs, blobsFit]
    by_cases h1 : bytes.length < 4
    · rw [if_pos h1, if_pos h1]
      rfl
    · rw [if_neg h1, if_neg h1]
      by_cases h2 : (bytes.drop 4).length < dec4 bytes + pad4 (dec4 bytes)
      · rw [if_pos h2, if_pos h2]
        rfl
      · rw [if_neg h2, if_neg h2, ← ih]
        rcases hp : parseBlobs n ((bytes.drop 4).drop (dec4 bytes + pad4 (dec4 bytes)))
          with _ | ⟨bs, rest⟩
        · rfl
        · rfl

lemma parseAux_isSome_iff (bytes : List Nat) : (parseAux bytes).isSome = wellFormedKtx bytes := by
  unfold parseAux wellFormedKtx
  by_cases h1 : bytes.length < 64
  · rw [if_pos h1, decide_eq_false (p := 64 ≤ bytes.length) (by omega)]
    simp [Bool.false_and]
  · rw [if_neg h1, decide_eq_true (p := 64 ≤ bytes.length) (Nat.not_lt.mp h1)]
    by_cases h2 : bytes.take 12 ≠ ktxMagic
    · rw [if_pos h2, decide_eq_false h2]
      simp [Bool.false_and]
    · rw [if_neg h2, decide_eq_true (Decidable.not_not.mp h2)]
      by_cases h3 : fieldAt bytes 0 ≠ ENDIAN_DEFAULT
      · rw [if_pos h3, decide_eq_false h3]
        simp [Bool.false_and]
      · rw [if_neg h3, decide_eq_true (Decidable.not_not.mp h3)]
        by_cases h4 : fieldAt bytes 11 = 0
        · rw [if_pos h4, decide_eq_false (p := fieldAt bytes 11 ≠ 0) (Decidable.not_not.mpr h4)]
          simp [Bool.false_and]
        · rw [if_neg h4, decide_eq_true (p := fieldAt bytes 11 ≠ 0) h4]
          by_cases h5 : fieldAt bytes 9 = 0
          · rw [if_pos h5, decide_eq_false (p := fieldAt bytes 9 ≠ 0) (Decidable.not_not.mpr h5)]
            simp [Bool.false_and]
          · rw [if_neg h5, decide_eq_true (p := fieldAt bytes 9 ≠ 0) h5]
            by_cases h6 : (bytes.drop 64).length < fieldAt bytes 12
            · rw [if_pos h6,
                decide_eq_false (p := fieldAt bytes 12 ≤ (bytes.drop 64).length) (by omega)]
              simp [Bool.false_and]
            · rw [if_neg h6,
                decide_eq_true (p := fieldAt bytes 12 ≤ (bytes.drop 64).length)
                  (Nat.not_lt.mp h6)]
              simp only [Bool.true_and]
              rw [← parseBlobs_isSome_iff]
              rcases hp : parseBlobs (fieldAt bytes 11 * fieldAt bytes 9 * fieldAt bytes 10)
                  ((bytes.drop 64).drop (fieldAt bytes 12)) with _ | ⟨blobs, rest⟩
              · rfl
              · rfl

/-- C8: parse construction fails — and fails with `MalformedInput`, the only
error it ever reports — exactly on the inputs that violate the spec's
enumerated conditions: too short for the fixed header, wrong magic, wrong
endianness marker, zero mip levels, zero array length, or a declared
metadata/blob length exceeding the remaining input.  (In this model parse
reads only via bounds-safe list operations and returns no bundle at all on
failure, so no out-of-bounds read and no partially initialized bundle can
occur.) -/
theorem ktx_parse_malformed_iff :
    ∀ bytes : List Nat,
      ((parse bytes).isOk = wellFormedKtx bytes) ∧
      (parse bytes = Except.error KtxError.MalformedInput ↔ wellFormedKtx bytes = false) := by
  intro bytes
  have h := parseAux_isSome_iff bytes
  unfold parse
  rcases hp : parseAux bytes with _ | b
  · rw [hp] at h
    simp only [Option.isSome] at h
    constructor
    · simp [← h, Except.isOk, Except.toBool]
    · simp [← h]
  · rw [hp] at h
    simp only [Option.isSome] at h
    constructor
    · simp [← h, Except.isOk, Except.toBool]
    · simp [← h]

/-- Witness for C8: the empty input is malformed and parse reports exactly
`MalformedInput` on it. -/
theorem ktx_parse_malformed_iff_witness :
    parse [] = Except.error KtxError.MalformedInput :=
  (ktx_parse_malformed_iff []).2.mpr (by decide)

/-! ### The concrete single-blob scenario (C9) -/

/-- C9: the concrete scenario of spec §8 — blob_count 1; `setBlob` of "AB";
`getSerializedLength` = fixed header (64) + 4-byte size prefix + 2 payload
bytes + 2 padding bytes = 64 + 8; `serialize` into a destination of exactly
that size succeeds; and parsing the serialized bytes yields a bundle whose
`getBlob({0,0,0})` returns exactly "AB" (bytes 65 66). -/
theorem ktx_concrete_scenario :
    (createEmpty 1 1 false).blobs.length = 1 ∧
    setBlob (createEmpty 1 1 false) ⟨0, 0, 0⟩ [65, 66] = Except.ok c9Bundle ∧
    getSerializedLength c9Bundle = 64 + 8 ∧
    serialize c9Bundle (64 + 8) = Except.ok (serializeBytes c9Bundle) ∧
    (parse (serializeBytes c9Bundle)).isOk = true ∧
    getBlob ((parse (serializeBytes c9Bundle)).toOption.getD (createEmpty 1 1 false)) ⟨0, 0, 0⟩ =
      Except.ok [65, 66] := by
  decide

/-! ### Metadata is discarded by parse but serialized when set (C10) -/

lemma parseAux_metadata_nil (bytes : List Nat) (b : KtxBundle)
    (h : parseAux bytes = some b) : b.metadata = [] := by
  unfold parseAux at h
  split at h
  · exact Option.noConfusion h
  · split at h
    · exact Option.noConfusion h
    · split at h
      · exact Option.noConfusion h
      · split at h
        · exact Option.noConfusion h
        · split at h
          · exact Option.noConfusion h
          · split at h
            · exact Option.noConfusion h
            · split at h
              · exact Option.noConfusion h
              · rw [← Option.some.inj h]

lemma mem_setMeta (m : List (List Nat × List Nat)) (k v : List Nat) : (k, v) ∈ setMeta m k v := by
  induction m with
  | nil => simp [setMeta]
  | cons e t ih =>
    obtain ⟨k', v'⟩ := e
    by_cases h : k' = k
    · simp [setMeta, h]
    · simp only [setMeta, if_neg h]
      exact List.mem_cons_of_mem _ ih

lemma metadataBytes_infix (m : List (List Nat × List Nat)) (k v : List Nat) (h : (k, v) ∈ m) :
    ∃ p q, metadataBytes m = p ++ (metaEntryBytes k v ++ q) := by
  induction m with
  | nil => simp at h
  | cons e t ih =>
    obtain ⟨k', v'⟩ := e
    rcases List.mem_cons.mp h with heq | hmem
    · obtain ⟨hk, hv⟩ := Prod.mk.injEq .. ▸ heq
      subst hk
      subst hv
      exact ⟨[], metadataBytes t, by simp [metadataBytes]⟩
    · obtain ⟨p, q, hpq⟩ := ih hmem
      exact ⟨metaEntryBytes k' v' ++ p, q, by simp [metadataBytes, hpq, List.append_assoc]⟩

/-- C10: parse construction discards the embedded key/value section — every
successfully parsed bundle has an empty metadata store, so `getMetadata`
returns absent for every key — while metadata added to any bundle via
`setMetadata` is physically included in `serialize`'s output as a
length-prefixed key/NUL/value entry. -/
theorem ktx_parse_discards_metadata :
    (∀ (bytes : List Nat) (b : KtxBundle), parse bytes = Except.ok b →
      ∀ key, getMetadata b key = none) ∧
    (∀ (b : KtxBundle) (k v : List Nat), ∃ p q,
      serializeBytes (setMetadata b k v) = p ++ (metaEntryBytes k v ++ q)) := by
  constructor
  · intro bytes b hp key
    have hm : b.metadata = [] := by
      unfold parse at hp
      rcases hq : parseAux bytes with _ | b0
      · rw [hq] at hp
        exact Except.noConfusion hp
      · rw [hq] at hp
        have hb : b0 = b := Except.ok.inj hp
        subst hb
        exact parseAux_metadata_nil bytes b0 hq
    unfold getMetadata
    rw [hm]
    rfl
  · intro b k v
    have hmem : (k, v) ∈ (setMetadata b k v).metadata := mem_setMeta b.metadata k v
    obtain ⟨p, q, hpq⟩ := metadataBytes_infix (setMetadata b k v).metadata k v hmem
    refine ⟨ktxMagic ++ fieldsBytes (hdrFields (setMetadata b k v)) ++ p,
      q ++ blobsBytes (setMetadata b k v).blobs, ?_⟩
    unfold serializeBytes
    rw [hpq]
    simp [List.append_assoc]

/-- Witness for C10: parsing a serialization that embeds the key/value pair
(75,86) yields a bundle in which that key is absent. -/
theorem ktx_parse_discards_metadata_witness :
    getMetadata ⟨⟨67305985, 0, 0, 0, 0, 0, 0, 0, 0⟩, 1, 1, 1, [[]], []⟩ [75] = none :=
  ktx_parse_discards_metadata.1 (serializeBytes (setMetadata (createEmpty 1 1 false) [75] [86]))
    ⟨⟨67305985, 0, 0, 0, 0, 0, 0, 0, 0⟩, 1, 1, 1, [[]], []⟩ (by decide) [75]

end KtxSpec
